import Mathlib

/-!
Verification of the Keystache authorization request broker
(source file `src/unnamed/part_000`, the Tauri event bridge) and of the
login-form nsec validation (`src/src/pages/LoginPage.tsx`).

The broker keeps two registries of decision handlers (JS objects keyed by a
randomly allocated integer id), listens for `sign_event_request` and
`pay_invoice_request` events, polls the registered handlers sequentially with
short-circuit on the first approving result, and invokes exactly one
`respond_to_*` command with the correlation key of the request.

The embedding below models:
  - one awaited handler invocation as a `HandlerOutcome` (a returned boolean,
    or a thrown exception / rejected promise);
  - the shared dispatch loop of the two listeners as `runHandlers`, returning
    how many handlers were invoked and either the final `isApproved` value or
    an error when a handler threw (the async listener callback then rejects
    before reaching the respond call);
  - the listeners as `signEventDispatch` / `payInvoiceDispatch`, returning the
    invocation count and the list of emitted responses (empty when the
    callback rejected);
  - the registries as association lists `Registry`, with `register` embedding
    the rejection-sampling id allocation loop (`allocLoop`, fuel-indexed since
    the JS loop has no intrinsic bound) and the unregister capability as
    `removeId` (JS `delete obj[id]`).
-/

namespace Keystache

/-- Outcome of awaiting one registered handler inside a dispatch loop: the
handler returned the boolean `b` (`ok b`), or it threw / its returned promise
rejected (`exn`). -/
inductive HandlerOutcome where
  | ok (b : Bool)
  | exn
  deriving DecidableEq, Repr

/-- Response emitted by the `respond_to_sign_event_request` Tauri command:
correlated by the event's `id`, carrying the final `isApproved`. -/
structure SignResponse where
  eventId : String
  approved : Bool
  deriving DecidableEq, Repr

/-- Response emitted by the `respond_to_pay_invoice_request` Tauri command:
correlated by the invoice string itself, carrying the final `isApproved`. -/
structure PayResponse where
  invoice : String
  approved : Bool
  deriving DecidableEq, Repr

/-- The dispatch loop shared verbatim by the two listeners
(`part_000` lines 86-95 and 118-127):

  let isApproved = false;
  for (const handler of snapshot) (isApproved = await handler(...); if (isApproved) break)

Input: the outcome each handler in the polled snapshot would produce.
Output: how many handlers were actually invoked, and `Except.ok isApproved`
when every invoked handler returned, or `Except.error ()` when an invoked
handler threw (the `await` rethrows inside the async callback, which has no
try/catch, so the callback rejects and the loop aborts). -/
def runHandlers : List HandlerOutcome → Nat × Except Unit Bool
  | [] => (0, Except.ok false)
  | HandlerOutcome.exn :: _ => (1, Except.error ())
  | HandlerOutcome.ok true :: _ => (1, Except.ok true)
  | HandlerOutcome.ok false :: rest =>
      ((runHandlers rest).1 + 1, (runHandlers rest).2)

/-- The `sign_event_request` listener (`part_000` lines 86-95): run the loop
over the snapshot, then call `respondToSignEventRequest(event.payload[0].id,
isApproved)`. When the loop aborted on a thrown handler the callback rejects
first, so no response is emitted. Returns (handlers invoked, responses
emitted). -/
def signEventDispatch (eventId : String) (hs : List HandlerOutcome) :
    Nat × List SignResponse :=
  match runHandlers hs with
  | (n, Except.ok b) => (n, [⟨eventId, b⟩])
  | (n, Except.error _) => (n, [])

/-- The `pay_invoice_request` listener (`part_000` lines 118-127): identical
loop over the pay registry snapshot, then
`respondToPayInvoiceRequest(event.payload, isApproved)`. -/
def payInvoiceDispatch (invoice : String) (hs : List HandlerOutcome) :
    Nat × List PayResponse :=
  match runHandlers hs with
  | (n, Except.ok b) => (n, [⟨invoice, b⟩])
  | (n, Except.error _) => (n, [])

/-- When no invoked handler throws, the loop completes with some final
boolean. -/
theorem runHandlers_no_exn (hs : List HandlerOutcome)
    (h : ∀ o ∈ hs, o ≠ HandlerOutcome.exn) :
    ∃ b, (runHandlers hs).2 = Except.ok b := by
  induction hs with
  | nil => exact ⟨false, rfl⟩
  | cons o rest ih =>
      match o with
      | HandlerOutcome.exn => exact absurd rfl (h _ (List.mem_cons_self _ _))
      | HandlerOutcome.ok true => exact ⟨true, rfl⟩
      | HandlerOutcome.ok false =>
          obtain ⟨b, hb⟩ := ih fun o ho => h o (List.mem_cons_of_mem _ ho)
          exact ⟨b, by simpa [runHandlers] using hb⟩

/-- When every handler returns `false`, the loop invokes all of them and ends
unapproved. -/
theorem runHandlers_all_false (hs : List HandlerOutcome)
    (h : ∀ o ∈ hs, o = HandlerOutcome.ok false) :
    runHandlers hs = (hs.length, Except.ok false) := by
  induction hs with
  | nil => rfl
  | cons o rest ih =>
      have ho : o = HandlerOutcome.ok false := h _ (List.mem_cons_self _ _)
      subst ho
      have hr := ih fun o ho => h o (List.mem_cons_of_mem _ ho)
      simp [runHandlers, hr]

/-- When a prefix of all-denying handlers is followed by an approving one, the
loop stops right there with approval. -/
theorem runHandlers_short_circuit (pre post : List HandlerOutcome)
    (hpre : ∀ o ∈ pre, o = HandlerOutcome.ok false) :
    runHandlers (pre ++ HandlerOutcome.ok true :: post) =
      (pre.length + 1, Except.ok true) := by
  induction pre with
  | nil => rfl
  | cons o rest ih =>
      have ho : o = HandlerOutcome.ok false := hpre _ (List.mem_cons_self _ _)
      subst ho
      have hr := ih fun o ho => hpre o (List.mem_cons_of_mem _ ho)
      simp [runHandlers, hr]

/-- Claim C1: for every inbound request whose polled handlers all return (a
combination of boolean results, over 0, 1 or N handlers), the dispatch cycle
emits exactly one outbound response, correlated by the event id for
sign-event requests and by the invoice string for pay-invoice requests. -/
theorem dispatch_exactly_one_response (eventId invoice : String)
    (signHs payHs : List HandlerOutcome)
    (h1 : ∀ o ∈ signHs, o ≠ HandlerOutcome.exn)
    (h2 : ∀ o ∈ payHs, o ≠ HandlerOutcome.exn) :
    (∃ b, (signEventDispatch eventId signHs).2 = [⟨eventId, b⟩])
    ∧ (∃ b, (payInvoiceDispatch invoice payHs).2 = [⟨invoice, b⟩]) := by
  obtain ⟨b1, hb1⟩ := runHandlers_no_exn signHs h1
  obtain ⟨b2, hb2⟩ := runHandlers_no_exn payHs h2
  constructor
  · rcases hr : runHandlers signHs with ⟨n, r⟩
    rw [hr] at hb1
    simp only [] at hb1
    subst hb1
    exact ⟨b1, by simp [signEventDispatch, hr]⟩
  · rcases hr : runHandlers payHs with ⟨n, r⟩
    rw [hr] at hb2
    simp only [] at hb2
    subst hb2
    exact ⟨b2, by simp [payInvoiceDispatch, hr]⟩

/-- Witness for C1 at a concrete request: two sign handlers (deny then
approve) and zero pay handlers. -/
theorem dispatch_exactly_one_response_witness :
    (∃ b, (signEventDispatch "evt1"
      [HandlerOutcome.ok false, HandlerOutcome.ok true]).2 = [⟨"evt1", b⟩])
    ∧ (∃ b, (payInvoiceDispatch "inv1" ([] : List HandlerOutcome)).2
        = [⟨"inv1", b⟩]) :=
  dispatch_exactly_one_response "evt1" "inv1" _ _ (by decide) (by decide)

/-- Claim C2 (refuted, code bug): evaluated at the failing input — first
polled handler throws, second would approve — the listener callback rejects:
only one handler is invoked (the second, approving one never runs) and no
response at all is emitted, for both request kinds. The code's own doc
comments promise that all registered handlers are called and that the request
is denied when none returns true; with a throwing handler neither happens. -/
theorem handler_exception_aborts_dispatch :
    signEventDispatch "evt1" [HandlerOutcome.exn, HandlerOutcome.ok true]
      = (1, [])
    ∧ payInvoiceDispatch "inv1" [HandlerOutcome.exn, HandlerOutcome.ok true]
      = (1, []) := by
  constructor <;> rfl

/-- Claim C4: if the k-th polled sign handler (1-indexed; here k =
`pre.length + 1`) is the first to return true, then exactly k handlers are
invoked — handlers k+1..N are never reached — and the emitted response
carries `approved = true` with the event's id. -/
theorem sign_dispatch_short_circuit (eventId : String)
    (pre post : List HandlerOutcome)
    (hpre : ∀ o ∈ pre, o = HandlerOutcome.ok false) :
    signEventDispatch eventId (pre ++ HandlerOutcome.ok true :: post) =
      (pre.length + 1, [⟨eventId, true⟩]) := by
  simp [signEventDispatch, runHandlers_short_circuit pre post hpre]

/-- Witness for C4: the second of three handlers approves; the third (which
would even throw) is never invoked. -/
theorem sign_dispatch_short_circuit_witness :
    signEventDispatch "evt1"
      ([HandlerOutcome.ok false] ++ HandlerOutcome.ok true :: [HandlerOutcome.exn])
      = (2, [⟨"evt1", true⟩]) :=
  sign_dispatch_short_circuit "evt1" [HandlerOutcome.ok false]
    [HandlerOutcome.exn] (by decide)

/-- Claim C5: with zero handlers every sign-event and every pay-invoice
request is answered with `approved = false`; likewise when every polled
handler returns a non-approving result. -/
theorem dispatch_default_deny (eventId invoice : String)
    (signHs payHs : List HandlerOutcome)
    (h1 : ∀ o ∈ signHs, o = HandlerOutcome.ok false)
    (h2 : ∀ o ∈ payHs, o = HandlerOutcome.ok false) :
    signEventDispatch eventId [] = (0, [⟨eventId, false⟩])
    ∧ payInvoiceDispatch invoice [] = (0, [⟨invoice, false⟩])
    ∧ signEventDispatch eventId signHs = (signHs.length, [⟨eventId, false⟩])
    ∧ payInvoiceDispatch invoice payHs = (payHs.length, [⟨invoice, false⟩]) := by
  refine ⟨rfl, rfl, ?_, ?_⟩
  · simp [signEventDispatch, runHandlers_all_false signHs h1]
  · simp [payInvoiceDispatch, runHandlers_all_false payHs h2]

/-- Witness for C5 at one denying handler on each side. -/
theorem dispatch_default_deny_witness :
    signEventDispatch "evt1" [] = (0, [⟨"evt1", false⟩])
    ∧ payInvoiceDispatch "inv1" [] = (0, [⟨"inv1", false⟩])
    ∧ signEventDispatch "evt1" [HandlerOutcome.ok false]
        = (1, [⟨"evt1", false⟩])
    ∧ payInvoiceDispatch "inv1" [HandlerOutcome.ok false]
        = (1, [⟨"inv1", false⟩]) :=
  dispatch_default_deny "evt1" "inv1" _ _ (by decide) (by decide)

/-- A handler registry: one of the two module-level JS objects keyed by
handler id (`signEventRequestHandlers`, `payInvoiceRequestHandlers`),
embedded as an association list of (id, handler) entries. -/
abbrev Registry (H : Type) := List (Nat × H)

variable {H P : Type}

/-- the ids currently in use in a registry (the object's keys). -/
def keys (R : Registry H) : List Nat := R.map Prod.fst

/-- the handler snapshot a dispatch iterates over (`Object.values`). -/
def values (R : Registry H) : List H := R.map Prod.snd

/-- the unregister capability's body, `delete registry[handlerId]`: removes
the entry stored under `id`, a no-op when no such entry exists. -/
def removeId (R : Registry H) (id : Nat) : Registry H :=
  R.filter fun e => e.1 != id

/-- The id-allocation loop of both registration functions:

  let handlerId = getRandomInt(1000000);
  while (registry[handlerId]) handlerId = getRandomInt(1000000);

`rand i` is the i-th draw of `getRandomInt(1000000)`; `start` is the index of
the next draw and `fuel` bounds how many draws are examined (the JS loop has
no intrinsic bound: it terminates, returning `some id`, exactly when some
examined draw is not already a key). -/
def allocLoop (ks : List Nat) (rand : Nat → Nat) : Nat → Nat → Option Nat
  | _, 0 => none
  | i, fuel + 1 =>
      if rand i ∈ ks then allocLoop ks rand (i + 1) fuel else some (rand i)

/-- Registration (`handleSignEventRequests` / `handlePayInvoiceRequests`):
allocate a fresh id by rejection sampling, store the handler under it, and
hand out that id (the unregister capability closes over it). `none` when the
sampling loop has not terminated within `fuel` draws. -/
def register (R : Registry H) (rand : Nat → Nat) (fuel : Nat) (f : H) :
    Option (Nat × Registry H) :=
  match allocLoop (keys R) rand 0 fuel with
  | none => none
  | some id => some (id, (id, f) :: R)

/-- Sequential registrations in one registry, each drawing from its own
random stream with its own draw bound. Returns the allocated ids in order
and the final registry. -/
def registerMany (R : Registry H) :
    List ((Nat → Nat) × Nat × H) → Option (List Nat × Registry H)
  | [] => some ([], R)
  | (rand, fuel, f) :: rest =>
      match register R rand fuel f with
      | none => none
      | some (id, R1) =>
          match registerMany R1 rest with
          | none => none
          | some (ids, R2) => some (id :: ids, R2)

/-- One mutation of a registry: an insertion under a freshly allocated id
(what a registration performs) or a deletion (what the unregister capability
performs). -/
inductive RegOp (H : Type) where
  | add (id : Nat) (f : H)
  | remove (id : Nat)

/-- apply one mutation. -/
def applyOp (R : Registry H) : RegOp H → Registry H
  | RegOp.add id f => (id, f) :: R
  | RegOp.remove id => removeId R id

/-- apply a sequence of mutations in order. -/
def applyOps (R : Registry H) : List (RegOp H) → Registry H
  | [] => R
  | op :: rest => applyOps (applyOp R op) rest

/-- an op sequence is valid when every `add` uses an id that is free at its
point of execution — exactly what the allocation loop guarantees whenever it
terminates (`allocLoop_fresh`). -/
def validOps (R : Registry H) : List (RegOp H) → Bool
  | [] => true
  | RegOp.add id f :: rest =>
      if id ∈ keys R then false
      else validOps (applyOp R (RegOp.add id f)) rest
  | RegOp.remove id :: rest => validOps (applyOp R (RegOp.remove id)) rest

/-- The two module-level registries of `part_000`, one per request kind. -/
structure Registries (H P : Type) where
  signEventRequestHandlers : Registry H
  payInvoiceRequestHandlers : Registry P

/-- the unregister capability returned by `handleSignEventRequests`: it
deletes its entry from the sign registry and touches nothing else. -/
def unregisterSign (s : Registries H P) (id : Nat) : Registries H P :=
  ⟨removeId s.signEventRequestHandlers id, s.payInvoiceRequestHandlers⟩

/-- deleting an id twice is the same as deleting it once. -/
theorem removeId_removeId (R : Registry H) (id : Nat) :
    removeId (removeId R id) id = removeId R id := by
  simp [removeId, List.filter_filter]

/-- after deletion, the id is no longer a key. -/
theorem not_mem_keys_removeId (R : Registry H) (id : Nat) :
    id ∉ keys (removeId R id) := by
  simp only [keys, removeId, List.mem_map]
  rintro ⟨e, he, rfl⟩
  have := (List.mem_filter.mp he).2
  simp at this

/-- deleting an id that is not a key is a no-op. -/
theorem removeId_of_not_mem (R : Registry H) (id : Nat) (h : id ∉ keys R) :
    removeId R id = R := by
  apply List.filter_eq_self.mpr
  intro e he
  simp only [bne_iff_ne, ne_eq]
  intro hc
  exact h (hc ▸ List.mem_map.mpr ⟨e, he, rfl⟩)

/-- Claim C7: invoking the unregister capability twice has the same net
effect on the registry as invoking it once — the entry is removed (its id is
no longer a key) — and removing an identity that is not present is a no-op. -/
theorem unregister_idempotent (R : Registry H) (id : Nat) :
    removeId (removeId R id) id = removeId R id
    ∧ id ∉ keys (removeId R id)
    ∧ (id ∉ keys R → removeId R id = R) :=
  ⟨removeId_removeId R id, not_mem_keys_removeId R id,
    removeId_of_not_mem R id⟩

/-- Witness for C7 at a one-entry registry and an absent id. -/
theorem unregister_idempotent_witness :
    removeId (removeId ([(3, true)] : Registry Bool) 5) 5
      = removeId ([(3, true)] : Registry Bool) 5
    ∧ 5 ∉ keys (removeId ([(3, true)] : Registry Bool) 5)
    ∧ removeId ([(3, true)] : Registry Bool) 5 = [(3, true)] := by
  have h := unregister_idempotent ([(3, true)] : Registry Bool) 5
  exact ⟨h.1, h.2.1, h.2.2 (by decide)⟩

/-- whenever the allocation loop returns an id, that id is not in use. -/
theorem allocLoop_fresh (ks : List Nat) (rand : Nat → Nat) :
    ∀ fuel start id, allocLoop ks rand start fuel = some id → id ∉ ks := by
  intro fuel
  induction fuel with
  | zero => intro start id h; simp [allocLoop] at h
  | succ n ih =>
      intro start id h
      by_cases hm : rand start ∈ ks
      · rw [allocLoop, if_pos hm] at h
        exact ih (start + 1) id h
      · rw [allocLoop, if_neg hm] at h
        cases h
        exact hm

/-- if the draw `n` places after `start` is free, the loop terminates within
`n + 1` draws from `start`, with a free id. -/
theorem allocLoop_reaches (ks : List Nat) (rand : Nat → Nat) :
    ∀ n start, rand (start + n) ∉ ks →
      ∃ id, allocLoop ks rand start (n + 1) = some id ∧ id ∉ ks := by
  intro n
  induction n with
  | zero =>
      intro start h
      rw [Nat.add_zero] at h
      exact ⟨rand start, by rw [allocLoop, if_neg h], h⟩
  | succ n ih =>
      intro start h
      by_cases hm : rand start ∈ ks
      · obtain ⟨id, hid, hfree⟩ :=
          ih (start + 1) (by rw [show start + 1 + n = start + (n + 1) by omega]; exact h)
        exact ⟨id, by rw [allocLoop, if_pos hm]; exact hid, hfree⟩
      · exact ⟨rand start, by rw [allocLoop, if_neg hm], hm⟩

/-- a registry with fewer entries than the 1,000,000-value identity space
leaves some identity unused. -/
theorem exists_unused_id (ks : List Nat) (h : ks.length < 1000000) :
    ∃ v, v < 1000000 ∧ v ∉ ks := by
  by_contra hc
  push_neg at hc
  have hsub : Finset.range 1000000 ⊆ ks.toFinset := by
    intro v hv
    rw [List.mem_toFinset]
    exact hc v (Finset.mem_range.mp hv)
  have h1 := Finset.card_le_card hsub
  rw [Finset.card_range] at h1
  have h2 := ks.toFinset_card_le
  omega

/-- Claim C8: when the registry holds strictly fewer entries than the
1,000,000-value identity space, the generate-and-check allocation loop
terminates (some finite number of draws returns an id) with an identity not
currently in use — provided the draw stream can reach every value of the
space, the deterministic counterpart of drawing uniformly at random forever.
Moreover every id the loop ever returns is unused. -/
theorem alloc_terminates_fresh (ks : List Nat) (rand : Nat → Nat)
    (hcard : ks.length < 1000000)
    (hsurj : ∀ v, v < 1000000 → ∃ i, rand i = v) :
    (∃ fuel id, allocLoop ks rand 0 fuel = some id ∧ id ∉ ks)
    ∧ (∀ fuel id, allocLoop ks rand 0 fuel = some id → id ∉ ks) := by
  constructor
  · obtain ⟨v, hv, hfree⟩ := exists_unused_id ks hcard
    obtain ⟨i, hi⟩ := hsurj v hv
    obtain ⟨id, hid, hidfree⟩ :=
      allocLoop_reaches ks rand i 0 (by rw [Nat.zero_add, hi]; exact hfree)
    exact ⟨i + 1, id, hid, hidfree⟩
  · intro fuel id h
    exact allocLoop_fresh ks rand fuel 0 id h

/-- Witness for C8 at a one-entry registry and the draw stream that cycles
through the whole identity space. -/
theorem alloc_terminates_fresh_witness :
    (∃ fuel id, allocLoop [0] (fun i => i % 1000000) 0 fuel = some id ∧ id ∉ [0])
    ∧ (∀ fuel id,
        allocLoop [0] (fun i => i % 1000000) 0 fuel = some id → id ∉ [0]) :=
  alloc_terminates_fresh [0] (fun i => i % 1000000) (by decide)
    (fun v hv => ⟨v, Nat.mod_eq_of_lt hv⟩)

/-- a successful registration stores the handler under a freshly allocated
id: the id was not in use and the registry gained exactly that entry. -/
theorem register_spec (R : Registry H) (rand : Nat → Nat) (fuel : Nat)
    (f : H) (id : Nat) (R' : Registry H)
    (h : register R rand fuel f = some (id, R')) :
    id ∉ keys R ∧ R' = (id, f) :: R := by
  unfold register at h
  rcases ha : allocLoop (keys R) rand 0 fuel with _ | aid
  · rw [ha] at h
    simp at h
  · rw [ha] at h
    simp only [Option.some.injEq, Prod.mk.injEq] at h
    obtain ⟨rfl, rfl⟩ := h
    exact ⟨allocLoop_fresh (keys R) rand fuel 0 _ ha, rfl⟩

/-- a successful run of sequential registrations allocates one id per
handler, all fresh with respect to the starting registry, pairwise distinct,
and the final key list is the new ids in front of the old ones. -/
theorem registerMany_spec :
    ∀ (l : List ((Nat → Nat) × Nat × H)) (R : Registry H) (ids : List Nat)
      (Rf : Registry H), registerMany R l = some (ids, Rf) →
      ids.length = l.length
      ∧ keys Rf = ids.reverse ++ keys R
      ∧ (∀ id ∈ ids, id ∉ keys R)
      ∧ ids.Nodup := by
  intro l
  induction l with
  | nil =>
      intro R ids Rf h
      simp only [registerMany, Option.some.injEq, Prod.mk.injEq] at h
      obtain ⟨h1, h2⟩ := h
      subst h1
      subst h2
      simp
  | cons p rest ih =>
      intro R ids Rf h
      obtain ⟨rand, fuel, f⟩ := p
      simp only [registerMany] at h
      rcases hr : register R rand fuel f with _ | idR1
      · simp only [hr] at h
        exact absurd h (by simp)
      · obtain ⟨id, R1⟩ := idR1
        simp only [hr] at h
        rcases hm : registerMany R1 rest with _ | idsR2
        · simp only [hm] at h
          exact absurd h (by simp)
        · obtain ⟨ids1, R2⟩ := idsR2
          simp only [hm, Option.some.injEq, Prod.mk.injEq] at h
          obtain ⟨hids, hRf⟩ := h
          subst hids
          subst hRf
          obtain ⟨hfresh, hR1⟩ := register_spec R rand fuel f id R1 hr
          obtain ⟨hlen, hkeys, hmem, hnd⟩ := ih R1 ids1 R2 hm
          have hkeysR1 : keys R1 = id :: keys R := by
            rw [hR1]
            rfl
          refine ⟨by simp [hlen], ?_, ?_, ?_⟩
          · rw [hkeys, hkeysR1]
            simp
          · intro j hj
            rcases List.mem_cons.mp hj with hj1 | hj1
            · exact hj1 ▸ hfresh
            · intro hc
              exact hmem j hj1 (by rw [hkeysR1]; exact List.mem_cons_of_mem _ hc)
          · refine List.nodup_cons.mpr ⟨?_, hnd⟩
            intro hc
            exact hmem id hc (by rw [hkeysR1]; exact List.mem_cons_self _ _)

/-- any valid sequence of additions (under fresh ids, as the allocation loop
guarantees) and removals keeps the registry's key list duplicate-free. -/
theorem validOps_keys_nodup :
    ∀ (ops : List (RegOp H)) (R : Registry H), validOps R ops = true →
      (keys R).Nodup → (keys (applyOps R ops)).Nodup := by
  intro ops
  induction ops with
  | nil =>
      intro R _ hnd
      exact hnd
  | cons op rest ih =>
      intro R h hnd
      cases op with
      | add id f =>
          rw [validOps] at h
          by_cases hm : id ∈ keys R
          · rw [if_pos hm] at h
            exact absurd h (by simp)
          · rw [if_neg hm] at h
            refine ih (applyOp R (RegOp.add id f)) h ?_
            have hk : keys (applyOp R (RegOp.add id f)) = id :: keys R := rfl
            rw [hk]
            exact List.nodup_cons.mpr ⟨hm, hnd⟩
      | remove id =>
          rw [validOps] at h
          refine ih (applyOp R (RegOp.remove id)) h ?_
          have hsub : List.Sublist (keys (removeId R id)) (keys R) :=
            (List.filter_sublist R).map Prod.fst
          exact List.Nodup.sublist hsub hnd

/-- Claim C6: every valid interleaving of registrations (additions under
freshly allocated ids) and unregistrations preserves uniqueness of the
registry's keys, and a run of N sequential registrations always yields N
pairwise-distinct handler identities. -/
theorem registry_identities_unique {H : Type} :
    (∀ (R : Registry H) (ops : List (RegOp H)), validOps R ops = true →
        (keys R).Nodup → (keys (applyOps R ops)).Nodup)
    ∧ (∀ (R : Registry H) (l : List ((Nat → Nat) × Nat × H))
        (ids : List Nat) (Rf : Registry H),
        registerMany R l = some (ids, Rf) →
          ids.length = l.length ∧ ids.Nodup
          ∧ ((keys R).Nodup → (keys Rf).Nodup)) := by
  refine ⟨fun R ops h hnd => validOps_keys_nodup ops R h hnd, ?_⟩
  intro R l ids Rf h
  obtain ⟨hlen, hkeys, hmem, hnd⟩ := registerMany_spec l R ids Rf h
  refine ⟨hlen, hnd, fun hndR => ?_⟩
  rw [hkeys]
  refine List.nodup_append.mpr ⟨List.nodup_reverse.mpr hnd, hndR, ?_⟩
  intro a ha
  exact hmem a (List.mem_reverse.mp ha)

/-- Witness for C6: an add/remove/re-add interleaving, and two sequential
registrations that collide once before finding a fresh id. -/
theorem registry_identities_unique_witness :
    (keys (applyOps ([] : Registry Bool)
      [RegOp.add 1 true, RegOp.remove 1, RegOp.add 1 false])).Nodup
    ∧ ([0, 1] : List Nat).length
        = [((fun _ => 0 : Nat → Nat), 1, true),
           ((fun i => i : Nat → Nat), 2, false)].length
    ∧ ([0, 1] : List Nat).Nodup
    ∧ (keys ([(1, false), (0, true)] : Registry Bool)).Nodup := by
  have h := @registry_identities_unique Bool
  have h1 := h.1 [] [RegOp.add 1 true, RegOp.remove 1, RegOp.add 1 false]
    (by decide) (by decide)
  have h2 := h.2 [] [((fun _ => 0 : Nat → Nat), 1, true),
    ((fun i => i : Nat → Nat), 2, false)] [0, 1] [(1, false), (0, true)] rfl
  exact ⟨h1, h2.1, h2.2.1, h2.2.2 (by decide)⟩

/-- Claim C9: registering the same handler function twice creates two
independent entries under distinct ids; a dispatch over the registry's value
snapshot invokes one handler per live entry (absent short-circuit); invoking
the unregister capability of the first registration removes exactly its own
entry, leaving the second registration's entry — and the other request
kind's registry — unchanged. -/
theorem same_handler_double_registration [DecidableEq H]
    (sR : Registry H) (pR : Registry P) (f : H) (r1 r2 : Nat → Nat)
    (fuel1 fuel2 : Nat) (id1 id2 : Nat) (R1 R2 : Registry H)
    (h1 : register sR r1 fuel1 f = some (id1, R1))
    (h2 : register R1 r2 fuel2 f = some (id2, R2)) :
    id1 ≠ id2
    ∧ List.lookup id1 R2 = some f
    ∧ List.lookup id2 R2 = some f
    ∧ (values R2).count f = (values sR).count f + 2
    ∧ (∀ e, (signEventDispatch e
        (List.replicate R2.length (HandlerOutcome.ok false))).1
          = sR.length + 2)
    ∧ List.lookup id2 (removeId R2 id1) = some f
    ∧ removeId R2 id1 = (id2, f) :: sR
    ∧ id1 ∉ keys (removeId R2 id1)
    ∧ (unregisterSign (Registries.mk R2 pR) id1).payInvoiceRequestHandlers
        = pR := by
  obtain ⟨hf1, hR1⟩ := register_spec sR r1 fuel1 f id1 R1 h1
  obtain ⟨hf2, hR2⟩ := register_spec R1 r2 fuel2 f id2 R2 h2
  subst hR1
  subst hR2
  have hne : id1 ≠ id2 := by
    intro hc
    exact hf2 (by simp [keys, hc])
  have hrm : removeId ((id2, f) :: (id1, f) :: sR) id1 = (id2, f) :: sR := by
    have hs : sR.filter (fun e => e.1 != id1) = sR :=
      removeId_of_not_mem sR id1 hf1
    simp only [removeId, List.filter_cons] at hs ⊢
    simp [hs, bne_iff_ne, Ne.symm hne]
  refine ⟨hne, ?_, ?_, ?_, ?_, ?_, hrm, ?_, rfl⟩
  · have hb : (id1 == id2) = false := by simp [hne]
    simp [List.lookup, hb]
  · simp [List.lookup]
  · simp [values, List.count_cons]
  · intro e
    have hgen : ∀ m,
        (signEventDispatch e (List.replicate m (HandlerOutcome.ok false))).1
          = m := by
      intro m
      have hall : ∀ o ∈ List.replicate m (HandlerOutcome.ok false),
          o = HandlerOutcome.ok false :=
        fun o ho => List.eq_of_mem_replicate ho
      simp [signEventDispatch, runHandlers_all_false _ hall]
    rw [hgen]
    simp
  · rw [hrm]
    simp [List.lookup]
  · exact hrm ▸ not_mem_keys_removeId ((id2, f) :: (id1, f) :: sR) id1

/-- Witness for C9: two registrations of the same handler on an empty sign
registry, with an empty pay registry alongside. -/
theorem same_handler_double_registration_witness :
    (1 : Nat) ≠ 2
    ∧ List.lookup 1 ([(2, true), (1, true)] : Registry Bool) = some true
    ∧ List.lookup 2 ([(2, true), (1, true)] : Registry Bool) = some true
    ∧ (values ([(2, true), (1, true)] : Registry Bool)).count true
        = (values ([] : Registry Bool)).count true + 2
    ∧ (∀ e, (signEventDispatch e
        (List.replicate ([(2, true), (1, true)] : Registry Bool).length
          (HandlerOutcome.ok false))).1 = ([] : Registry Bool).length + 2)
    ∧ List.lookup 2 (removeId ([(2, true), (1, true)] : Registry Bool) 1)
        = some true
    ∧ removeId ([(2, true), (1, true)] : Registry Bool) 1
        = (2, true) :: ([] : Registry Bool)
    ∧ 1 ∉ keys (removeId ([(2, true), (1, true)] : Registry Bool) 1)
    ∧ (unregisterSign
        (Registries.mk ([(2, true), (1, true)] : Registry Bool)
          ([] : Registry Bool)) 1).payInvoiceRequestHandlers
        = ([] : Registry Bool) :=
  same_handler_double_registration [] [] true (fun _ => 1) (fun _ => 2)
    1 1 1 2 [(1, true)] [(2, true), (1, true)] rfl rfl

/-- Modelled from the spec: the tri-state pay-invoice outcome of §3 and §4.3
— the values the code's own doc comment says handlers return. Missing from
src: the implemented `PayInvoiceRequestHandler` type returns a plain
boolean instead. -/
inductive PayOutcomeSpec where
  | paid
  | failed
  | denied
  deriving DecidableEq, Repr

/-- Modelled from the spec: the §4.3 reduction — any "paid" wins; otherwise
"failed" if any handler failed; otherwise "denied". -/
def aggregatePaySpec (l : List PayOutcomeSpec) : PayOutcomeSpec :=
  if PayOutcomeSpec.paid ∈ l then PayOutcomeSpec.paid
  else if PayOutcomeSpec.failed ∈ l then PayOutcomeSpec.failed
  else PayOutcomeSpec.denied

/-- Modelled from the spec: the §3 boundary projection — paid maps to
approved, failed and denied both map to denied. -/
def payOutcomeToBool : PayOutcomeSpec → Bool
  | PayOutcomeSpec.paid => true
  | PayOutcomeSpec.failed => false
  | PayOutcomeSpec.denied => false

/-- Claim C3 (refuted, code bug): the claimed tri-state reduction
distinguishes "failed" from "denied", but the implemented handler type
returns a boolean and the listener computes only a first-true short-circuit.
At the failing input — poll order [denied, failed], no handler paid — the
spec verdict is "failed", distinct from the all-denied verdict, yet the
code's dispatch of the boolean projections of the two runs is identical and
emits `approved = false`: the "failed" verdict promised by the code's own
doc comment does not exist in the implementation. -/
theorem pay_tristate_not_implemented :
    aggregatePaySpec [PayOutcomeSpec.denied, PayOutcomeSpec.failed]
      = PayOutcomeSpec.failed
    ∧ aggregatePaySpec [PayOutcomeSpec.denied, PayOutcomeSpec.denied]
      = PayOutcomeSpec.denied
    ∧ PayOutcomeSpec.failed ≠ PayOutcomeSpec.denied
    ∧ payInvoiceDispatch "inv1"
        ([PayOutcomeSpec.denied, PayOutcomeSpec.failed].map
          (fun o => HandlerOutcome.ok (payOutcomeToBool o)))
      = payInvoiceDispatch "inv1"
        ([PayOutcomeSpec.denied, PayOutcomeSpec.denied].map
          (fun o => HandlerOutcome.ok (payOutcomeToBool o)))
    ∧ (payInvoiceDispatch "inv1"
        ([PayOutcomeSpec.denied, PayOutcomeSpec.failed].map
          (fun o => HandlerOutcome.ok (payOutcomeToBool o)))).2
      = [⟨"inv1", false⟩] := by
  refine ⟨rfl, rfl, by decide, rfl, rfl⟩

/-- Result of a successful `nip19.decode`: the login page only inspects the
`type` discriminant of the decoded value. -/
structure DecodeResult where
  type : String
  deriving DecidableEq, Repr

/-- `isValidNsec` (LoginPage.tsx lines 19-25). `nip19.decode` is external
(nostr-tools), modelled as an arbitrary fallible function; the try/catch
maps a throw to `false` and a successful decode to the comparison of its
`type` with "nsec". -/
def isValidNsec (decode : String → Except String DecodeResult)
    (nsec : String) : Bool :=
  match decode nsec with
  | Except.ok r => r.type == "nsec"
  | Except.error _ => false

/-- Modelled from the spec: the submission pipeline around `onSubmit`
(LoginPage.tsx lines 27-53). zod's `refine(isValidNsec)` under `zodResolver`
makes `handleSubmit` run `onSubmit` only on values satisfying the schema,
and `onSubmit` passes `values.nsec` to `setNsec`; react-hook-form and zod
are external libraries, not in src. Returns the nsec strings passed to
`setNsec` by one submission attempt. -/
def submitLogin (decode : String → Except String DecodeResult)
    (nsec : String) : List String :=
  if isValidNsec decode nsec then [nsec] else []

/-- Claim C10: `isValidNsec` is a total boolean function of its input — the
catch turns any decode failure into `false` — returning true exactly when
decode succeeds and classifies the string as an nsec key; consequently every
string the login form hands to `setNsec` satisfies `isValidNsec`. -/
theorem isValidNsec_correct (decode : String → Except String DecodeResult)
    (s : String) :
    (isValidNsec decode s = true
      ↔ ∃ r, decode s = Except.ok r ∧ r.type = "nsec")
    ∧ ∀ n ∈ submitLogin decode s, isValidNsec decode n = true := by
  constructor
  · unfold isValidNsec
    rcases h : decode s with e | r
    · simp
    · simp [beq_iff_eq]
  · intro n hn
    unfold submitLogin at hn
    by_cases hv : isValidNsec decode s
    · rw [if_pos hv] at hn
      rcases List.mem_singleton.mp hn with rfl
      exact hv
    · rw [if_neg hv] at hn
      exact absurd hn (List.not_mem_nil n)

end Keystache
